import Mathlib

/-!
Verification of the AT32 WebISP core against its specification.

The development shallowly embeds the three core components of the repository:

* the transport layer (`WebSerialInterface.read` over the FIFO byte buffer),
* the bootloader protocol engine (`AT32Protocol`: `sync`, `sendCommand`,
  `sendAddress`, `getID`, `writeMemory`), and
* the firmware-container parsers (`FileParsers.parseBin`, `parseHex`,
  `parseElf`).

Protocol operations are modelled as state-passing functions over a
`SerialState` holding the stream of bytes the device will deliver and the
trace of transport actions (`flush`, `write`, `read`) the engine has issued.
JavaScript-specific behaviour (Uint8Array truncation, `parseInt` returning
NaN, `DataView` range errors, 32-bit `<<`) is modelled explicitly where the
source relies on it.
-/

set_option autoImplicit false

-- Decidable equality for `Except`, used to evaluate concrete runs.
deriving instance DecidableEq for Except

/-! ## Transport layer: `WebSerialInterface.read` on the internal buffer

`read(count, timeoutMs)` polls until the buffer holds at least `count`
bytes, then returns `buffer.slice(0, count)` and keeps `buffer.slice(count)`.
In the pure model no new bytes arrive while a read is pending, so the poll
loop either succeeds immediately or elapses its timeout; the thrown timeout
message carries how many bytes were available. -/

/-- Timeout failure of `WebSerialInterface.read`: the requested count and the
number of bytes that were available in the buffer when the timeout elapsed. -/
structure ReadTimeout where
  requested : Nat
  available : Nat
deriving Repr, DecidableEq

/-- One blocking transport read on the FIFO buffer: returns the consumed
front bytes and the remaining buffer, or times out. -/
def webSerialRead (count : Nat) (buffer : List Nat) :
    Except ReadTimeout (List Nat × List Nat) :=
  if buffer.length < count then
    Except.error ⟨count, buffer.length⟩
  else
    Except.ok (buffer.take count, buffer.drop count)

/-- A sequence of transport reads, each consuming from where the previous one
left off; the outputs are collected in order. -/
def runReads : List Nat → List Nat → Except ReadTimeout (List (List Nat) × List Nat)
  | [], buffer => Except.ok ([], buffer)
  | c :: cs, buffer =>
    match webSerialRead c buffer with
    | Except.error e => Except.error e
    | Except.ok (out, rest) =>
      match runReads cs rest with
      | Except.error e => Except.error e
      | Except.ok (outs, fin) => Except.ok (out :: outs, fin)

/-! ## Protocol engine state and monad -/

/-- A transport action issued by the protocol engine, in issue order. -/
inductive SEvent where
  | flush : SEvent
  | write (bytes : List Nat) : SEvent
  | read (count timeout : Nat) : SEvent
deriving Repr, DecidableEq

/-- Errors raised by the protocol engine, one constructor per `throw` site of
the source, carrying the data the source interpolates into the message. -/
inductive PError where
  /-- Transport timeout: requested count and bytes available. -/
  | timeoutRead (requested available : Nat) : PError
  /-- Source: 'Received NACK during sync'. -/
  | nackSync : PError
  /-- Source: 'Sync failed. Expected 0x79, got ...' with the byte received. -/
  | syncUnexpected (got : Nat) : PError
  /-- Source: 'Command ... failed. Got ...'. -/
  | commandFailed (cmd got : Nat) : PError
  /-- Source: 'GetID: Missing final ACK'. -/
  | getIDMissingAck : PError
  /-- Source: 'Invalid write length' (the spec's `InvalidArgument`). -/
  | invalidWriteLength : PError
  /-- Source: 'WriteMemory: NACK during data write'. -/
  | writeMemoryNack : PError
  /-- Source: 'Address NACK'. -/
  | addressNack : PError
deriving Repr, DecidableEq

/-- State threaded through a protocol operation: the bytes the device will
deliver to the host (consumed front-first by reads) and the trace of
transport actions issued so far. A `flush` drops stale buffered bytes; the
`input` stream models only the device's forthcoming response bytes. -/
structure SerialState where
  input : List Nat
  events : List SEvent
deriving Repr, DecidableEq

/-- Protocol computations: state passing with typed errors. A thrown error
carries the state at the throw point (JavaScript exceptions do not roll back
already-performed transport actions). -/
def SerialM (α : Type) : Type :=
  SerialState → Except (PError × SerialState) (α × SerialState)

/-- Sequencing of protocol computations. -/
def SerialM.bind {α β : Type} (m : SerialM α) (f : α → SerialM β) : SerialM β :=
  fun s =>
    match m s with
    | Except.ok (a, s') => f a s'
    | Except.error e => Except.error e

instance : Monad SerialM where
  pure a := fun s => Except.ok (a, s)
  bind := SerialM.bind

@[simp] theorem SerialM.bind_apply {α β : Type} (m : SerialM α) (f : α → SerialM β)
    (s : SerialState) :
    (m >>= f) s =
      match m s with
      | Except.ok (a, s') => f a s'
      | Except.error e => Except.error e := rfl

@[simp] theorem SerialM.pure_apply {α : Type} (a : α) (s : SerialState) :
    (pure a : SerialM α) s = Except.ok (a, s) := rfl

/-- `serial.flush()`: discard stale buffered bytes (recorded in the trace). -/
def serialFlush : SerialM Unit :=
  fun s => Except.ok ((), { s with events := s.events ++ [SEvent.flush] })

/-- `serial.write(bytes)`: enqueue one write of the given bytes. -/
def serialWrite (bytes : List Nat) : SerialM Unit :=
  fun s => Except.ok ((), { s with events := s.events ++ [SEvent.write bytes] })

/-- `serial.read(count, timeout)`: consume exactly `count` bytes from the
front of the device stream, or fail with a timeout carrying how many bytes
were available. -/
def serialRead (count timeout : Nat) : SerialM (List Nat) :=
  fun s =>
    if count ≤ s.input.length then
      Except.ok (s.input.take count,
        { s with input := s.input.drop count,
                 events := s.events ++ [SEvent.read count timeout] })
    else
      Except.error (PError.timeoutRead count s.input.length, s)

/-- Raise a protocol error at the current state. -/
def serialThrow {α : Type} (e : PError) : SerialM α :=
  fun s => Except.error (e, s)

/-! ## Protocol engine operations -/

/-- Opcode `GET_ID = 0x02`. -/
def CMD_GET_ID : Nat := 0x02

/-- Opcode `WRITE_MEMORY = 0x31`. -/
def CMD_WRITE_MEMORY : Nat := 0x31

/-- Positive acknowledge byte `ACK = 0x79`. -/
def ACK : Nat := 0x79

/-- Negative acknowledge byte `NACK = 0x1F`. -/
def NACK : Nat := 0x1F

/-- Truncation of a JavaScript number into a `Uint8Array` cell. -/
def toByte (n : Nat) : Nat := n % 256

/-- `AT32Protocol.sync()`: flush, write the handshake byte `0x7F`, read one
byte with a 1000 ms timeout, and classify it. -/
def sync : SerialM Unit := do
  serialFlush
  serialWrite [0x7F]
  let resp ← serialRead 1 1000
  if resp.headD 0 ≠ ACK then
    if resp.headD 0 = NACK then serialThrow PError.nackSync
    else serialThrow (PError.syncUnexpected (resp.headD 0))

/-- `AT32Protocol.sendCommand(cmd)`: write `[cmd, cmd ^ 0xFF]` and expect an
ACK (the transport read uses the default 1000 ms timeout). -/
def sendCommand (cmd : Nat) : SerialM Unit := do
  serialWrite [toByte cmd, toByte (cmd ^^^ 0xFF)]
  let resp ← serialRead 1 1000
  if resp.headD 0 ≠ ACK then
    serialThrow (PError.commandFailed cmd (resp.headD 0))

/-- The 5-byte frame sent by `AT32Protocol.sendAddress`: the four address
bytes most-significant first, each masked with `0xFF`, then their XOR. -/
def addressFrame (addr : Nat) : List Nat :=
  let b3 := (addr >>> 24) &&& 0xFF
  let b2 := (addr >>> 16) &&& 0xFF
  let b1 := (addr >>> 8) &&& 0xFF
  let b0 := addr &&& 0xFF
  [b3, b2, b1, b0, b3 ^^^ b2 ^^^ b1 ^^^ b0]

/-- `AT32Protocol.sendAddress(addr)`: write the 5-byte address frame and
expect an ACK. -/
def sendAddress (addr : Nat) : SerialM Unit := do
  serialWrite (addressFrame addr)
  let resp ← serialRead 1 1000
  if resp.headD 0 ≠ ACK then
    serialThrow PError.addressNack

/-- `AT32Protocol.getID()`: send GET_ID, read the length byte `n`, read
`n + 1` ID bytes and the final ACK, then reassemble
`pid = (idBytes[2] << 24) | (idBytes[3] << 16) | (idBytes[0] << 8) | idBytes[1]`
forced unsigned (`>>> 0`), and return `idBytes[4]` as the project ID. -/
def getID : SerialM (Nat × Nat) := do
  sendCommand CMD_GET_ID
  let lenBuf ← serialRead 1 1000
  let n := lenBuf.headD 0
  let totalBytes := n + 1
  let idBytes ← serialRead totalBytes 1000
  let ack ← serialRead 1 1000
  if ack.headD 0 ≠ ACK then serialThrow PError.getIDMissingAck
  let pid := (idBytes.getD 2 0 <<< 24 ||| idBytes.getD 3 0 <<< 16 |||
      idBytes.getD 0 0 <<< 8 ||| idBytes.getD 1 0) % 2 ^ 32
  pure (pid, idBytes.getD 4 0)

/-- `AT32Protocol.writeMemory(address, data)`: reject lengths outside
`[1, 256]`, then send WRITE_MEMORY, the address, and the data frame
`[n, data..., checksum]` with `n = data.length - 1` and the checksum the XOR
fold of `n` with every data byte, and expect a final ACK. -/
def writeMemory (address : Nat) (data : List Nat) : SerialM Unit :=
  if 256 < data.length ∨ data.length = 0 then
    serialThrow PError.invalidWriteLength
  else do
    sendCommand CMD_WRITE_MEMORY
    sendAddress address
    let n := data.length - 1
    let checksum := data.foldl Nat.xor n
    serialWrite (toByte n :: data.map toByte ++ [toByte checksum])
    let resp ← serialRead 1 1000
    if resp.headD 0 ≠ ACK then
      serialThrow PError.writeMemoryNack

/-! ## Run lemmas for the protocol primitives -/

/-- Running `sendCommand` when the device answers ACK. -/
theorem sendCommand_ack (cmd : Nat) (rest : List Nat) (evs : List SEvent) :
    sendCommand cmd ⟨0x79 :: rest, evs⟩ =
      Except.ok ((), ⟨rest,
        evs ++ [SEvent.write [toByte cmd, toByte (cmd ^^^ 0xFF)], SEvent.read 1 1000]⟩) := by
  simp [sendCommand, serialWrite, serialRead, ACK]

/-- Running `sendAddress` when the device answers ACK. -/
theorem sendAddress_ack (addr : Nat) (rest : List Nat) (evs : List SEvent) :
    sendAddress addr ⟨0x79 :: rest, evs⟩ =
      Except.ok ((), ⟨rest, evs ++ [SEvent.write (addressFrame addr), SEvent.read 1 1000]⟩) := by
  simp [sendAddress, serialWrite, serialRead, ACK]

/-- An XOR fold of bytes starting from a byte stays below 256. -/
theorem foldl_xor_lt (l : List Nat) : ∀ n : Nat, n < 256 → (∀ b ∈ l, b < 256) →
    l.foldl Nat.xor n < 256 := by
  induction l with
  | nil => intro n hn _; simpa using hn
  | cons b t ih =>
    intro n hn hl
    have hb : b < 256 := hl b (by simp)
    have h256 : (256 : Nat) = 2 ^ 8 := by norm_num
    have hx : Nat.xor n b < 256 := by
      rw [h256] at hn hb ⊢
      exact Nat.xor_lt_two_pow hn hb
    simpa using ih (Nat.xor n b) hx (fun x hx' => hl x (by simp [hx']))

/-! ## Claim C7: sync -/

/-- Claim C7: `sync` flushes the transport, writes the single byte `0x7F`,
and reads one byte with a 1000 ms timeout; it succeeds exactly when that byte
is ACK (`0x79`), fails with the distinct NACK error on `0x1F`, and fails with
a protocol error naming the unexpected byte otherwise. -/
theorem claim_C7_sync :
    (∀ rest : List Nat, sync ⟨ACK :: rest, []⟩ =
        Except.ok ((), ⟨rest, [SEvent.flush, SEvent.write [0x7F], SEvent.read 1 1000]⟩))
  ∧ (∀ rest : List Nat, sync ⟨NACK :: rest, []⟩ =
        Except.error (PError.nackSync,
          ⟨rest, [SEvent.flush, SEvent.write [0x7F], SEvent.read 1 1000]⟩))
  ∧ (∀ (b : Nat) (rest : List Nat), b ≠ ACK → b ≠ NACK →
        sync ⟨b :: rest, []⟩ =
          Except.error (PError.syncUnexpected b,
            ⟨rest, [SEvent.flush, SEvent.write [0x7F], SEvent.read 1 1000]⟩)) := by
  refine ⟨fun rest => ?_, fun rest => ?_, fun b rest h1 h2 => ?_⟩
  · simp [sync, serialFlush, serialWrite, serialRead, serialThrow, ACK, NACK]
  · simp [sync, serialFlush, serialWrite, serialRead, serialThrow, ACK, NACK]
  · simp [ACK, NACK] at h1 h2
    simp [sync, serialFlush, serialWrite, serialRead, serialThrow, ACK, NACK, h1, h2]

/-- Witness for claim C7 at the concrete unexpected byte `0x55`. -/
theorem claim_C7_witness :
    sync ⟨[0x55], []⟩ =
      Except.error (PError.syncUnexpected 0x55,
        ⟨[], [SEvent.flush, SEvent.write [0x7F], SEvent.read 1 1000]⟩) :=
  claim_C7_sync.2.2 0x55 [] (by decide) (by decide)

/-! ## Claim C4: sendAddress -/

/-- Claim C4: for every 32-bit address, `sendAddress` writes exactly 5 bytes:
the 4 address bytes most-significant first followed by the XOR checksum of
those 4 bytes; address `0x08000000` produces `[0x08, 0x00, 0x00, 0x00, 0x08]`. -/
theorem claim_C4_sendAddress :
    (∀ addr : Nat, addr < 2 ^ 32 →
        addressFrame addr =
          [addr / 2 ^ 24 % 256, addr / 2 ^ 16 % 256, addr / 2 ^ 8 % 256, addr % 256,
           (addr / 2 ^ 24 % 256) ^^^ (addr / 2 ^ 16 % 256) ^^^ (addr / 2 ^ 8 % 256) ^^^
             (addr % 256)]
        ∧ (addressFrame addr).length = 5)
  ∧ (∀ (addr : Nat) (rest : List Nat),
        sendAddress addr ⟨ACK :: rest, []⟩ =
          Except.ok ((), ⟨rest, [SEvent.write (addressFrame addr), SEvent.read 1 1000]⟩))
  ∧ addressFrame 0x08000000 = [0x08, 0x00, 0x00, 0x00, 0x08] := by
  have h255 : ∀ x : Nat, x &&& 255 = x % 256 := by
    intro x
    have h := Nat.and_pow_two_sub_one_eq_mod x 8
    norm_num at h
    exact h
  refine ⟨fun addr _ => ⟨?_, ?_⟩, fun addr rest => ?_, ?_⟩
  · simp [addressFrame, Nat.shiftRight_eq_div_pow, h255]
  · simp [addressFrame]
  · simpa using sendAddress_ack addr rest []
  · decide

/-- Witness for claim C4 at the concrete flash base address. -/
theorem claim_C4_witness :
    addressFrame 0x08000000 =
      [0x08000000 / 2 ^ 24 % 256, 0x08000000 / 2 ^ 16 % 256, 0x08000000 / 2 ^ 8 % 256,
       0x08000000 % 256,
       (0x08000000 / 2 ^ 24 % 256) ^^^ (0x08000000 / 2 ^ 16 % 256) ^^^
         (0x08000000 / 2 ^ 8 % 256) ^^^ (0x08000000 % 256)] :=
  (claim_C4_sendAddress.1 0x08000000 (by norm_num)).1

/-! ## Claim C1: writeMemory -/

/-- Claim C1: for every address and non-empty data of length at most 256,
`writeMemory` sends the WRITE_MEMORY command frame, the address frame, and
then exactly one data frame `[n, data..., checksum]` with
`n = data.length - 1` and `checksum` the XOR fold of `n` with every data
byte; for length 0 or above 256 it fails with the invalid-length error before
any transport action. -/
theorem claim_C1_writeMemory :
    (∀ (addr : Nat) (data rest : List Nat),
        data.length ≠ 0 → data.length ≤ 256 → (∀ b ∈ data, b < 256) →
        writeMemory addr data ⟨ACK :: ACK :: ACK :: rest, []⟩ =
          Except.ok ((), ⟨rest,
            [SEvent.write [0x31, 0xCE], SEvent.read 1 1000,
             SEvent.write (addressFrame addr), SEvent.read 1 1000,
             SEvent.write ((data.length - 1) :: data ++
               [data.foldl Nat.xor (data.length - 1)]),
             SEvent.read 1 1000]⟩))
  ∧ (∀ (addr : Nat) (data : List Nat) (s : SerialState),
        data.length = 0 ∨ 256 < data.length →
        writeMemory addr data s = Except.error (PError.invalidWriteLength, s)) := by
  constructor
  · intro addr data rest h0 h256 hb
    have hn : data.length - 1 < 256 := by omega
    have hcs : data.foldl Nat.xor (data.length - 1) < 256 := foldl_xor_lt data _ hn hb
    have hcmd1 : toByte CMD_WRITE_MEMORY = 0x31 := by decide
    have hcmd2 : toByte (CMD_WRITE_MEMORY ^^^ 0xFF) = 0xCE := by decide
    have hmap : data.map toByte = data := by
      have : data.map toByte = data.map id :=
        List.map_congr_left (fun b hbm => Nat.mod_eq_of_lt (hb b hbm))
      simpa using this
    rw [writeMemory, if_neg (by omega)]
    simp [sendCommand_ack, sendAddress_ack, serialWrite, serialRead, ACK,
      hcmd1, hcmd2, hmap, toByte, Nat.mod_eq_of_lt hn, Nat.mod_eq_of_lt hcs]
    exact ⟨by decide, by decide⟩
  · intro addr data s h
    rw [writeMemory, if_pos (by omega)]
    rfl

/-- Witness for claim C1: a one-byte write at the flash base, and the
rejected empty write. -/
theorem claim_C1_witness :
    (writeMemory 0x08000000 [0xAB] ⟨[0x79, 0x79, 0x79], []⟩ =
      Except.ok ((), ⟨[],
        [SEvent.write [0x31, 0xCE], SEvent.read 1 1000,
         SEvent.write (addressFrame 0x08000000), SEvent.read 1 1000,
         SEvent.write [0, 0xAB, 0xAB], SEvent.read 1 1000]⟩))
    ∧ writeMemory 0x08000000 [] ⟨[], []⟩ =
        Except.error (PError.invalidWriteLength, ⟨[], []⟩) := by
  constructor
  · have h := claim_C1_writeMemory.1 0x08000000 [0xAB] [] (by decide) (by decide)
      (by intro b hb; simp at hb; omega)
    simpa using h
  · exact claim_C1_writeMemory.2 0x08000000 [] ⟨[], []⟩ (Or.inl rfl)

/-! ## Claims C2 and C3: getID -/

/-- Shifted-or of a value with a small remainder is addition. -/
theorem shl_lor_eq_add (a b k : Nat) (hb : b < 2 ^ k) :
    a <<< k ||| b = a * 2 ^ k + b := by
  rw [Nat.shiftLeft_eq, Nat.mul_comm a (2 ^ k), ← Nat.mul_add_lt_is_or hb a]

/-- The getID bit-reassembly, rephrased arithmetically for byte inputs. -/
theorem pid_bytes_eq (b0 b1 b2 b3 : Nat) (h0 : b0 < 256) (h1 : b1 < 256)
    (h2 : b2 < 256) (h3 : b3 < 256) :
    b2 <<< 24 ||| b3 <<< 16 ||| b0 <<< 8 ||| b1 =
      b2 * 2 ^ 24 + b3 * 2 ^ 16 + b0 * 2 ^ 8 + b1 := by
  have step1 : b2 <<< 24 ||| b3 <<< 16 = b2 * 2 ^ 24 + b3 * 2 ^ 16 := by
    have hb : b3 <<< 16 < 2 ^ 24 := by
      rw [Nat.shiftLeft_eq]; norm_num; omega
    rw [shl_lor_eq_add _ _ _ hb, Nat.shiftLeft_eq]
  have e2 : b2 * 2 ^ 24 + b3 * 2 ^ 16 = (b2 * 2 ^ 8 + b3) <<< 16 := by
    rw [Nat.shiftLeft_eq]; ring
  have step2 : b2 * 2 ^ 24 + b3 * 2 ^ 16 ||| b0 <<< 8 =
      (b2 * 2 ^ 8 + b3) * 2 ^ 16 + b0 * 2 ^ 8 := by
    have hb : b0 <<< 8 < 2 ^ 16 := by
      rw [Nat.shiftLeft_eq]; norm_num; omega
    rw [e2, shl_lor_eq_add _ _ _ hb, Nat.shiftLeft_eq]
  have e3 : (b2 * 2 ^ 8 + b3) * 2 ^ 16 + b0 * 2 ^ 8 =
      (b2 * 2 ^ 16 + b3 * 2 ^ 8 + b0) <<< 8 := by
    rw [Nat.shiftLeft_eq]; ring
  have step3 : (b2 * 2 ^ 8 + b3) * 2 ^ 16 + b0 * 2 ^ 8 ||| b1 =
      (b2 * 2 ^ 16 + b3 * 2 ^ 8 + b0) * 2 ^ 8 + b1 := by
    have hb : b1 < 2 ^ 8 := by omega
    rw [e3, shl_lor_eq_add _ _ _ hb]
  rw [step1, step2, step3]; ring

/-- Claim C2: for every 5-byte ID payload delivered by the device (after the
command ACK, a length byte 4, the five ID bytes, and the trailing ACK),
`getID` returns `pid = (byte2 << 24) | (byte3 << 16) | (byte0 << 8) | byte1`
masked to 32 bits — stated arithmetically — and `byte4` as the project ID. -/
theorem claim_C2_getID :
    ∀ (b0 b1 b2 b3 b4 : Nat) (rest : List Nat),
      b0 < 256 → b1 < 256 → b2 < 256 → b3 < 256 →
      getID ⟨ACK :: 0x04 :: b0 :: b1 :: b2 :: b3 :: b4 :: ACK :: rest, []⟩ =
        Except.ok (((b2 * 2 ^ 24 + b3 * 2 ^ 16 + b0 * 2 ^ 8 + b1) % 2 ^ 32, b4),
          ⟨rest, [SEvent.write [0x02, 0xFD], SEvent.read 1 1000, SEvent.read 1 1000,
                  SEvent.read 5 1000, SEvent.read 1 1000]⟩) := by
  intro b0 b1 b2 b3 b4 rest h0 h1 h2 h3
  have hcmd1 : toByte CMD_GET_ID = 0x02 := by decide
  have hcmd2 : toByte (CMD_GET_ID ^^^ 0xFF) = 0xFD := by decide
  simp [getID, sendCommand_ack, serialRead, serialThrow, ACK, hcmd1, hcmd2,
    pid_bytes_eq b0 b1 b2 b3 h0 h1 h2 h3, List.getD]

/-- Witness for claim C2 at the mock device's ID bytes. -/
theorem claim_C2_witness :
    getID ⟨ACK :: 0x04 :: 0x41 :: 0x54 :: 0x33 :: 0x32 :: 0x01 :: ACK :: [], []⟩ =
      Except.ok (((0x33 * 2 ^ 24 + 0x32 * 2 ^ 16 + 0x41 * 2 ^ 8 + 0x54) % 2 ^ 32, 0x01),
        ⟨[], [SEvent.write [0x02, 0xFD], SEvent.read 1 1000, SEvent.read 1 1000,
              SEvent.read 5 1000, SEvent.read 1 1000]⟩) :=
  claim_C2_getID 0x41 0x54 0x33 0x32 0x01 [] (by decide) (by decide) (by decide) (by decide)

/-- Counterexample to claim C3: on the device response
`[0x04, 0x41, 0x54, 0x33, 0x32, 0x01, 0x79]` the code's reassembly formula
yields product id `0x33324154`, not the claimed `0x33325441`. -/
theorem claim_C3_counterexample :
    (getID ⟨[0x79, 0x04, 0x41, 0x54, 0x33, 0x32, 0x01, 0x79], []⟩ =
        Except.ok ((0x33324154, 1),
          ⟨[], [SEvent.write [0x02, 0xFD], SEvent.read 1 1000, SEvent.read 1 1000,
                SEvent.read 5 1000, SEvent.read 1 1000]⟩))
    ∧ (0x33324154 : Nat) ≠ 0x33325441 := by
  exact ⟨by decide, by decide⟩

/-- Claim C3 as amended: `getID` on the response bytes
`[0x04, 0x41, 0x54, 0x33, 0x32, 0x01, 0x79]` returns product id `0x33324154`
(bytes `0x33, 0x32` in the top half, `0x41, 0x54` in the bottom half) and
project id 1. -/
theorem claim_C3_getID_example :
    getID ⟨[0x79, 0x04, 0x41, 0x54, 0x33, 0x32, 0x01, 0x79], []⟩ =
      Except.ok ((0x33324154, 1),
        ⟨[], [SEvent.write [0x02, 0xFD], SEvent.read 1 1000, SEvent.read 1 1000,
              SEvent.read 5 1000, SEvent.read 1 1000]⟩) := by
  decide

/-! ## Claim C8: transport read FIFO behaviour -/

/-- Unfolding of `runReads` when the first read succeeds. -/
theorem runReads_cons (c : Nat) (cs buffer : List Nat) (h : ¬ buffer.length < c) :
    runReads (c :: cs) buffer =
      match runReads cs (buffer.drop c) with
      | Except.error e => Except.error e
      | Except.ok (outs, fin) => Except.ok (buffer.take c :: outs, fin) := by
  rw [runReads, webSerialRead, if_neg h]

/-- Claim C8: when the buffer holds at least `count` bytes,
`WebSerialInterface.read` removes and returns exactly the first `count`
bytes in arrival order and leaves the rest in order; on timeout it fails
carrying the number of available bytes; and across every sequence of reads
the consumed/remaining split is strictly FIFO: the concatenation of all
outputs followed by the remainder is the original buffer, with each output
of exactly the requested length. -/
theorem claim_C8_read_fifo :
    (∀ (count : Nat) (buffer : List Nat), count ≤ buffer.length →
        webSerialRead count buffer = Except.ok (buffer.take count, buffer.drop count)
        ∧ (buffer.take count).length = count
        ∧ buffer.take count ++ buffer.drop count = buffer)
  ∧ (∀ (count : Nat) (buffer : List Nat), buffer.length < count →
        webSerialRead count buffer = Except.error ⟨count, buffer.length⟩)
  ∧ (∀ (counts buffer : List Nat) (outs : List (List Nat)) (fin : List Nat),
        runReads counts buffer = Except.ok (outs, fin) →
        outs.foldr List.append fin = buffer ∧ outs.map List.length = counts) := by
  refine ⟨fun count buffer h => ?_, fun count buffer h => ?_, fun counts => ?_⟩
  · refine ⟨?_, List.length_take_of_le h, List.take_append_drop count buffer⟩
    rw [webSerialRead, if_neg (by omega)]
  · rw [webSerialRead, if_pos h]
  · induction counts with
    | nil =>
      intro buffer outs fin h
      rw [runReads] at h
      injection h with h'
      injection h' with h1 h2
      subst h1; subst h2
      exact ⟨rfl, rfl⟩
    | cons c cs ih =>
      intro buffer outs fin h
      by_cases hlen : buffer.length < c
      · rw [runReads, webSerialRead, if_pos hlen] at h
        exact absurd h (by simp)
      · rw [runReads_cons c cs buffer hlen] at h
        cases hrec : runReads cs (buffer.drop c) with
        | error e => rw [hrec] at h; exact absurd h (by simp)
        | ok p =>
          obtain ⟨outs', fin'⟩ := p
          rw [hrec] at h
          injection h with h'
          injection h' with h1 h2
          subst h1; subst h2
          obtain ⟨ha, hb⟩ := ih (buffer.drop c) outs' fin' hrec
          constructor
          · simp only [List.foldr_cons, List.append_eq, ha]
            exact List.take_append_drop c buffer
          · have hc : c ≤ buffer.length := by omega
            simp [hb, List.length_take_of_le hc]

/-- Witness for claim C8: two successive reads split a five-byte buffer
FIFO-wise, and a short buffer times out carrying the available count. -/
theorem claim_C8_witness :
    (webSerialRead 2 [1, 2, 3, 4, 5] = Except.ok ([1, 2], [3, 4, 5])
      ∧ ([1, 2, 3, 4, 5] : List Nat).take 2 ++ ([1, 2, 3, 4, 5] : List Nat).drop 2 =
          [1, 2, 3, 4, 5])
    ∧ webSerialRead 4 [9, 9] = Except.error ⟨4, 2⟩ := by
  constructor
  · have h := claim_C8_read_fifo.1 2 [1, 2, 3, 4, 5] (by decide)
    exact ⟨h.1, h.2.2⟩
  · exact claim_C8_read_fifo.2.1 4 [9, 9] (by decide)

/-! ## Firmware parsers: parseBin and parseElf

`parseElf` reads the input through a JavaScript `DataView`, whose accessors
throw a `RangeError` when a read crosses the end of the buffer, and slices
segment data with `new Uint8Array(buffer, offset, length)`, which also
range-checks. Both are modelled with bounds-checked accessors over the byte
list. -/

/-- A parsed firmware segment with a plain 32-bit address. -/
structure ByteSegment where
  address : Nat
  data : List Nat
deriving Repr, DecidableEq

/-- Errors of `parseElf`: the two typed throws of the source plus the
`RangeError` the JavaScript `DataView`/`Uint8Array` built-ins raise on
out-of-bounds access. -/
inductive ElfErr where
  /-- Source: 'Invalid ELF Magic'. -/
  | invalidMagic : ElfErr
  /-- Source: '64-bit ELF not supported yet'. -/
  | unsupported64 : ElfErr
  /-- JavaScript `RangeError` from `DataView.get*` or the `Uint8Array` view. -/
  | rangeError : ElfErr
deriving Repr, DecidableEq

/-- `DataView.getUint8`: one byte, bounds-checked. -/
def dvGetUint8 (b : List Nat) (off : Nat) : Except ElfErr Nat :=
  if off + 1 ≤ b.length then Except.ok (b.getD off 0 % 256)
  else Except.error ElfErr.rangeError

/-- `DataView.getUint16` with explicit endianness, bounds-checked. -/
def dvGetUint16 (b : List Nat) (off : Nat) (littleEndian : Bool) : Except ElfErr Nat :=
  if off + 2 ≤ b.length then
    let x0 := b.getD off 0 % 256
    let x1 := b.getD (off + 1) 0 % 256
    Except.ok (if littleEndian then x1 * 2 ^ 8 + x0 else x0 * 2 ^ 8 + x1)
  else Except.error ElfErr.rangeError

/-- `DataView.getUint32` with explicit endianness, bounds-checked. -/
def dvGetUint32 (b : List Nat) (off : Nat) (littleEndian : Bool) : Except ElfErr Nat :=
  if off + 4 ≤ b.length then
    let x0 := b.getD off 0 % 256
    let x1 := b.getD (off + 1) 0 % 256
    let x2 := b.getD (off + 2) 0 % 256
    let x3 := b.getD (off + 3) 0 % 256
    Except.ok (if littleEndian then
        x3 * 2 ^ 24 + x2 * 2 ^ 16 + x1 * 2 ^ 8 + x0
      else
        x0 * 2 ^ 24 + x1 * 2 ^ 16 + x2 * 2 ^ 8 + x3)
  else Except.error ElfErr.rangeError

/-- `new Uint8Array(buffer, off, len)`: a bounds-checked byte slice. -/
def uint8ArrayView (b : List Nat) (off len : Nat) : Except ElfErr (List Nat) :=
  if off + len ≤ b.length then Except.ok (((b.drop off).take len).map (fun x => x % 256))
  else Except.error ElfErr.rangeError

/-- One program-header entry of the `parseElf` loop: emit a singleton segment
for a `PT_LOAD` (`p_type = 1`) entry with `p_filesz > 0`, nothing otherwise. -/
def elfPhEntry (b : List Nat) (le : Bool) (off : Nat) : Except ElfErr (List ByteSegment) := do
  let pType ← dvGetUint32 b off le
  if pType = 1 then
    let pOffset ← dvGetUint32 b (off + 4) le
    let pPaddr ← dvGetUint32 b (off + 12) le
    let pFilesz ← dvGetUint32 b (off + 16) le
    if pFilesz > 0 then
      let seg ← uint8ArrayView b pOffset pFilesz
      pure [⟨pPaddr, seg⟩]
    else pure []
  else pure []

/-- The `parseElf` program-header loop over the given entry indices. -/
def elfPhScan (b : List Nat) (le : Bool) (phOff phEntSize : Nat) :
    List Nat → Except ElfErr (List ByteSegment)
  | [] => pure []
  | i :: is => do
    let s ← elfPhEntry b le (phOff + i * phEntSize)
    let rest ← elfPhScan b le phOff phEntSize is
    pure (s ++ rest)

/-- The 32-bit branch of `parseElf`: read `e_phoff` (offset 28),
`e_phentsize` (offset 42) and `e_phnum` (offset 44), then scan the program
header table for loadable segments. -/
def parseElf32Body (b : List Nat) (littleEndian : Bool) : Except ElfErr (List ByteSegment) := do
  let phOff ← dvGetUint32 b 28 littleEndian
  let phEntSize ← dvGetUint16 b 42 littleEndian
  let phNum ← dvGetUint16 b 44 littleEndian
  elfPhScan b littleEndian phOff phEntSize (List.range phNum)

/-- `FileParsers.parseElf`: check the big-endian magic, read the class byte
(offset 4) and the endianness byte (offset 5), then either parse the 32-bit
program headers or reject a 64-bit (class 2) file. -/
def parseElf (b : List Nat) : Except ElfErr (List ByteSegment) := do
  let magic ← dvGetUint32 b 0 false
  if magic ≠ 0x7F454C46 then throw ElfErr.invalidMagic
  let classByte ← dvGetUint8 b 4
  let is64Bit := classByte == 2
  let endianByte ← dvGetUint8 b 5
  let littleEndian := endianByte == 1
  if !is64Bit then parseElf32Body b littleEndian
  else throw ElfErr.unsupported64

/-- `FileParsers.parseBin`: the whole input verbatim as one segment at the
base address (the source defaults the base to `0x08000000`). -/
def parseBin (buffer : List Nat) (baseAddress : Nat) : List ByteSegment :=
  [⟨baseAddress, buffer⟩]

@[simp] theorem except_ok_bind {ε α β : Type} (a : α) (f : α → Except ε β) :
    (Except.ok a : Except ε α) >>= f = f a := rfl

@[simp] theorem except_error_bind {ε α β : Type} (e : ε) (f : α → Except ε β) :
    (Except.error e : Except ε α) >>= f = Except.error e := rfl

/-- The synthetic 32-bit little-endian ELF of the specification's example:
a 52-byte header (`e_phoff = 52`, `e_phentsize = 32`, `e_phnum = 1`), one
`PT_LOAD` program header (`p_offset = 84`, `p_paddr = 0x08000000`,
`p_filesz = 64`) and 64 data bytes. -/
def elfExample : List Nat :=
  [0x7F, 0x45, 0x4C, 0x46, 1, 1, 1, 0] ++ List.replicate 8 0 ++
  [2, 0] ++ [0x28, 0] ++ [1, 0, 0, 0] ++
  [0, 0, 0, 0] ++ [52, 0, 0, 0] ++ [0, 0, 0, 0] ++ [0, 0, 0, 0] ++
  [52, 0] ++ [32, 0] ++ [1, 0] ++ [0, 0] ++ [0, 0] ++ [0, 0] ++
  ([1, 0, 0, 0] ++ [84, 0, 0, 0] ++ [0, 0, 0, 0] ++ [0, 0, 0, 8] ++
   [64, 0, 0, 0] ++ [64, 0, 0, 0] ++ [0, 0, 0, 0] ++ [0, 0, 0, 0]) ++
  List.range 64

/-! ## Claims C6 and C10: parseElf -/

/-- Counterexample to claim C6: the 5-byte input whose class byte (offset 4)
is 2 raises the DataView range error from the eager endianness-byte read at
offset 5, not the unsupported-64-bit error the claim demands for every
class-2 input. -/
theorem claim_C6_counterexample :
    parseElf [0x7F, 0x45, 0x4C, 0x46, 2] = Except.error ElfErr.rangeError
    ∧ ElfErr.rangeError ≠ ElfErr.unsupported64 := by
  exact ⟨by decide, by decide⟩

set_option maxRecDepth 10000 in
/-- Claim C6 as amended: on the synthetic one-`PT_LOAD` ELF, `parseElf`
returns exactly one 64-byte segment at `0x08000000` taken from `p_offset`;
and on any input of at least 6 bytes whose class byte is 2 it raises the
unsupported-64-bit error without depending on anything past offset 5 (the
endianness byte at offset 5 is still read, so a 5-byte class-2 input raises
a range error instead). -/
theorem claim_C6_parseElf :
    parseElf elfExample = Except.ok [⟨0x08000000, List.range 64⟩]
    ∧ ∀ (e : Nat) (rest : List Nat),
        parseElf (0x7F :: 0x45 :: 0x4C :: 0x46 :: 2 :: e :: rest) =
          Except.error ElfErr.unsupported64 := by
  constructor
  · decide
  · intro e rest
    have h1 : dvGetUint32 (0x7F :: 0x45 :: 0x4C :: 0x46 :: 2 :: e :: rest) 0 false =
        Except.ok 0x7F454C46 := by
      rw [dvGetUint32, if_pos (by simp only [List.length_cons]; omega)]
      norm_num [List.getD]
    have h2 : dvGetUint8 (0x7F :: 0x45 :: 0x4C :: 0x46 :: 2 :: e :: rest) 4 =
        Except.ok 2 := by
      rw [dvGetUint8, if_pos (by simp only [List.length_cons]; omega)]
      norm_num [List.getD]
    have h3 : dvGetUint8 (0x7F :: 0x45 :: 0x4C :: 0x46 :: 2 :: e :: rest) 5 =
        Except.ok (e % 256) := by
      rw [dvGetUint8, if_pos (by simp only [List.length_cons]; omega)]
      norm_num [List.getD]
    simp [parseElf, h1, h2, h3]
    rfl

/-- Witness for claim C6: the shortest class-2 input with an endianness
byte present. -/
theorem claim_C6_witness :
    parseElf [0x7F, 0x45, 0x4C, 0x46, 2, 0] = Except.error ElfErr.unsupported64 :=
  claim_C6_parseElf.2 0 []

/-- A `DataView.getUint8` failure is always the range error. -/
theorem dvGetUint8_error (b : List Nat) (off : Nat) {x : ElfErr}
    (h : dvGetUint8 b off = Except.error x) : x = ElfErr.rangeError := by
  rw [dvGetUint8] at h
  split at h
  · exact absurd h (by simp)
  · injection h with h'; exact h'.symm

/-- A `DataView.getUint16` failure is always the range error. -/
theorem dvGetUint16_error (b : List Nat) (off : Nat) (le : Bool) {x : ElfErr}
    (h : dvGetUint16 b off le = Except.error x) : x = ElfErr.rangeError := by
  rw [dvGetUint16] at h
  split at h
  · exact absurd h (by simp)
  · injection h with h'; exact h'.symm

/-- A `DataView.getUint32` failure is always the range error. -/
theorem dvGetUint32_error (b : List Nat) (off : Nat) (le : Bool) {x : ElfErr}
    (h : dvGetUint32 b off le = Except.error x) : x = ElfErr.rangeError := by
  rw [dvGetUint32] at h
  split at h
  · exact absurd h (by simp)
  · injection h with h'; exact h'.symm

/-- A `Uint8Array` view failure is always the range error. -/
theorem uint8ArrayView_error (b : List Nat) (off len : Nat) {x : ElfErr}
    (h : uint8ArrayView b off len = Except.error x) : x = ElfErr.rangeError := by
  rw [uint8ArrayView] at h
  split at h
  · exact absurd h (by simp)
  · injection h with h'; exact h'.symm

/-- Error propagation through `Except` bind, specialised to the range-error
source property. -/
theorem bind_error_src {α β : Type} (m : Except ElfErr α) (f : α → Except ElfErr β)
    {x : ElfErr} (h : m >>= f = Except.error x)
    (hm : ∀ e : ElfErr, m = Except.error e → e = ElfErr.rangeError)
    (hf : ∀ a : α, f a = Except.error x → x = ElfErr.rangeError) :
    x = ElfErr.rangeError := by
  cases hm' : m with
  | error e =>
    rw [hm', except_error_bind] at h
    injection h with h'
    exact h' ▸ hm e hm'
  | ok a =>
    rw [hm', except_ok_bind] at h
    exact hf a h

/-- A program-header entry can only fail with the range error. -/
theorem elfPhEntry_error (b : List Nat) (le : Bool) (off : Nat) {x : ElfErr}
    (h : elfPhEntry b le off = Except.error x) : x = ElfErr.rangeError := by
  rw [elfPhEntry] at h
  refine bind_error_src _ _ h (fun e he => dvGetUint32_error _ _ _ he) ?_
  intro pType h2
  by_cases hp : pType = 1
  · rw [if_pos hp] at h2
    refine bind_error_src _ _ h2 (fun e he => dvGetUint32_error _ _ _ he) ?_
    intro pOffset h3
    refine bind_error_src _ _ h3 (fun e he => dvGetUint32_error _ _ _ he) ?_
    intro pPaddr h4
    refine bind_error_src _ _ h4 (fun e he => dvGetUint32_error _ _ _ he) ?_
    intro pFilesz h5
    by_cases hz : pFilesz > 0
    · rw [if_pos hz] at h5
      refine bind_error_src _ _ h5 (fun e he => uint8ArrayView_error _ _ _ he) ?_
      intro seg h6
      exact Except.noConfusion h6
    · rw [if_neg hz] at h5
      exact Except.noConfusion h5
  · rw [if_neg hp] at h2
    exact Except.noConfusion h2

/-- The program-header scan can only fail with the range error. -/
theorem elfPhScan_error (b : List Nat) (le : Bool) (phOff phEntSize : Nat) :
    ∀ (idxs : List Nat) {x : ElfErr},
      elfPhScan b le phOff phEntSize idxs = Except.error x → x = ElfErr.rangeError := by
  intro idxs
  induction idxs with
  | nil => intro x h; rw [elfPhScan] at h; exact Except.noConfusion h
  | cons i is ih =>
    intro x h
    rw [elfPhScan] at h
    refine bind_error_src _ _ h (fun e he => elfPhEntry_error _ _ _ he) ?_
    intro s h2
    refine bind_error_src _ _ h2 (fun e he => ih he) ?_
    intro rest h3
    exact Except.noConfusion h3

/-- The 32-bit body of `parseElf` can only fail with the range error. -/
theorem parseElf32Body_error (b : List Nat) (le : Bool) {x : ElfErr}
    (h : parseElf32Body b le = Except.error x) : x = ElfErr.rangeError := by
  rw [parseElf32Body] at h
  refine bind_error_src _ _ h (fun e he => dvGetUint32_error _ _ _ he) ?_
  intro phOff h2
  refine bind_error_src _ _ h2 (fun e he => dvGetUint16_error _ _ _ he) ?_
  intro phEntSize h3
  refine bind_error_src _ _ h3 (fun e he => dvGetUint16_error _ _ _ he) ?_
  intro phNum h4
  exact elfPhScan_error _ _ _ _ _ h4

/-- Claim C10: when the magic matches and the class byte (offset 4) is
neither 1 nor 2, `parseElf` raises no format error for the class byte and
proceeds with the 32-bit parse, because only the value 2 is distinguished;
moreover the 32-bit body never raises the magic or 64-bit format errors. -/
theorem claim_C10_class_byte :
    (∀ (c e : Nat) (rest : List Nat), c % 256 ≠ 1 → c % 256 ≠ 2 →
        parseElf (0x7F :: 0x45 :: 0x4C :: 0x46 :: c :: e :: rest) =
          parseElf32Body (0x7F :: 0x45 :: 0x4C :: 0x46 :: c :: e :: rest) (e % 256 == 1))
  ∧ (∀ (b : List Nat) (le : Bool),
        parseElf32Body b le ≠ Except.error ElfErr.unsupported64
        ∧ parseElf32Body b le ≠ Except.error ElfErr.invalidMagic) := by
  constructor
  · intro c e rest hc1 hc2
    have h1 : dvGetUint32 (0x7F :: 0x45 :: 0x4C :: 0x46 :: c :: e :: rest) 0 false =
        Except.ok 0x7F454C46 := by
      rw [dvGetUint32, if_pos (by simp only [List.length_cons]; omega)]
      norm_num [List.getD]
    have h2 : dvGetUint8 (0x7F :: 0x45 :: 0x4C :: 0x46 :: c :: e :: rest) 4 =
        Except.ok (c % 256) := by
      rw [dvGetUint8, if_pos (by simp only [List.length_cons]; omega)]
      norm_num [List.getD]
    have h3 : dvGetUint8 (0x7F :: 0x45 :: 0x4C :: 0x46 :: c :: e :: rest) 5 =
        Except.ok (e % 256) := by
      rw [dvGetUint8, if_pos (by simp only [List.length_cons]; omega)]
      norm_num [List.getD]
    simp [parseElf, h1, h2, h3, hc2]
  · intro b le
    constructor
    · intro h
      exact absurd (parseElf32Body_error b le h) (by decide)
    · intro h
      exact absurd (parseElf32Body_error b le h) (by decide)

/-- Witness for claim C10 at class byte 0. -/
theorem claim_C10_witness :
    parseElf [0x7F, 0x45, 0x4C, 0x46, 0, 1] =
      parseElf32Body [0x7F, 0x45, 0x4C, 0x46, 0, 1] (1 % 256 == 1) :=
  claim_C10_class_byte.1 0 1 [] (by decide) (by decide)

/-! ## Firmware parser: parseHex

`FileParsers.parseHex` works on JavaScript numbers produced by
`parseInt(..., 16)`, which yields NaN on fields without hex digits; NaN then
flows through additions and strict comparisons. JavaScript numbers arising
in the parser are modelled as `Option Int` with `none` for NaN. The helpers
below model the exact built-ins the source leans on: `String.substring`
(clamping and swapping its indices, NaN becoming 0), `parseInt` with radix
16 (longest hex-digit prefix after optional whitespace, sign and `0x`), the
32-bit `<<` conversion, and the `Uint8Array` element conversion used when a
segment is committed. -/

/-- A segment produced by `parseHex`: its base address is a JavaScript
number (it can be NaN when a record's address field fails to parse). -/
structure HexSegment where
  address : Option Int
  data : List Nat
deriving Repr, DecidableEq

/-- JavaScript strict equality `===` on numbers: NaN compares unequal to
everything, including itself. -/
def jsStrictEq (a b : Option Int) : Bool :=
  match a, b with
  | some x, some y => x == y
  | _, _ => false

/-- JavaScript addition: NaN absorbs. -/
def jsAdd (a b : Option Int) : Option Int :=
  match a, b with
  | some x, some y => some (x + y)
  | _, _ => none

/-- `ToInt32`: wrap an integer into `[-2^31, 2^31)`. -/
def toInt32 (v : Int) : Int :=
  let u := v % 4294967296
  if u < 2147483648 then u else u - 4294967296

/-- JavaScript `x << k` for `k < 32`: both operands pass through `ToInt32`
(NaN becomes 0), so the result is a 32-bit signed value. -/
def jsShl32 (x : Option Int) (k : Nat) : Int :=
  toInt32 ((match x with | none => 0 | some v => toInt32 v) * 2 ^ k)

/-- Storing a JavaScript number into a `Uint8Array` cell: NaN becomes 0,
integers are taken modulo 256. -/
def toUint8 (v : Option Int) : Nat :=
  match v with
  | none => 0
  | some x => (x % 256).toNat

/-- Whether a character is a radix-16 digit for `parseInt`. -/
def isHexDigitChar (c : Char) : Bool :=
  (('0'.toNat ≤ c.toNat) && (c.toNat ≤ '9'.toNat)) ||
  (('a'.toNat ≤ c.toNat) && (c.toNat ≤ 'f'.toNat)) ||
  (('A'.toNat ≤ c.toNat) && (c.toNat ≤ 'F'.toNat))

/-- The value of a radix-16 digit. -/
def hexCharVal (c : Char) : Nat :=
  if ('0'.toNat ≤ c.toNat) && (c.toNat ≤ '9'.toNat) then c.toNat - '0'.toNat
  else if ('a'.toNat ≤ c.toNat) && (c.toNat ≤ 'f'.toNat) then c.toNat - 'a'.toNat + 10
  else if ('A'.toNat ≤ c.toNat) && (c.toNat ≤ 'F'.toNat) then c.toNat - 'A'.toNat + 10
  else 0

/-- JavaScript `parseInt(s, 16)`: skip leading whitespace, take an optional
sign and an optional `0x`/`0X` prefix, then the longest run of hex digits;
no digits means NaN. -/
def parseIntHex (s : List Char) : Option Int :=
  let s1 := s.dropWhile (fun c => c == ' ' || c == '\t' || c == '\n' || c == '\r')
  let neg : Bool :=
    match s1 with
    | '-' :: _ => true
    | _ => false
  let s2 :=
    match s1 with
    | '-' :: t => t
    | '+' :: t => t
    | _ => s1
  let s3 :=
    match s2 with
    | '0' :: c :: t => if c == 'x' || c == 'X' then t else s2
    | _ => s2
  let ds := s3.takeWhile isHexDigitChar
  if ds.isEmpty then none
  else
    let v : Nat := ds.foldl (fun acc c => 16 * acc + hexCharVal c) 0
    some (if neg then -(v : Int) else (v : Int))

/-- JavaScript `String.substring(a, b)`: indices are clamped to
`[0, length]` and swapped when out of order. -/
def jsSubstring (s : List Char) (a b : Int) : List Char :=
  let len : Int := s.length
  let a' := min (max a 0) len
  let b' := min (max b 0) len
  let lo := min a' b'
  let hi := max a' b'
  ((s.drop lo.toNat).take (hi - lo).toNat)

/-- The mutable state of the `parseHex` line loop. -/
structure HexState where
  segments : List HexSegment
  extendedAddress : Int
  currentData : List (Option Int)
  currentAddress : Option Int
deriving Repr, DecidableEq

/-- `commitSegment`: push the accumulating segment (converted through
`Uint8Array`) when it has data and a start address, then reset. -/
def commitSegment (st : HexState) : HexState :=
  if 0 < st.currentData.length ∧ ¬ jsStrictEq st.currentAddress (some (-1)) then
    { st with
      segments := st.segments ++ [⟨st.currentAddress, st.currentData.map toUint8⟩],
      currentData := [],
      currentAddress := some (-1) }
  else st

/-- The data bytes decoded from a record's data field: `len` loop
iterations (none when `len` is NaN or negative), each a two-character
`parseInt`. -/
def decodeHexBytes (dataStr : List Char) (len : Option Int) : List (Option Int) :=
  (List.range (match len with | some k => k.toNat | none => 0)).map
    (fun i => parseIntHex (jsSubstring dataStr (2 * i) (2 * i + 2)))

/-- Processing of one decoded record: data records (type 0) extend or
restart the accumulating segment depending on address contiguity; types 2
and 4 update the extended address and commit; type 1 commits and stops. -/
def processRecord (st : HexState) (len addr rtype : Option Int) (dataStr : List Char) :
    HexState × Bool :=
  if jsStrictEq rtype (some 0) then
    let absoluteAddr := jsAdd (some st.extendedAddress) addr
    let st1 :=
      if jsStrictEq st.currentAddress (some (-1)) then
        { st with currentAddress := absoluteAddr }
      else if ¬ jsStrictEq absoluteAddr
          (jsAdd st.currentAddress (some (st.currentData.length : Int))) then
        let c := commitSegment st
        { c with currentAddress := absoluteAddr }
      else st
    ({ st1 with currentData := st1.currentData ++ decodeHexBytes dataStr len }, false)
  else if jsStrictEq rtype (some 2) then
    (commitSegment { st with extendedAddress := jsShl32 (parseIntHex dataStr) 4 }, false)
  else if jsStrictEq rtype (some 4) then
    (commitSegment { st with extendedAddress := jsShl32 (parseIntHex dataStr) 16 }, false)
  else if jsStrictEq rtype (some 1) then
    (commitSegment st, true)
  else (st, false)

/-- Processing of one line: lines not starting with `:` are skipped; others
have their length, address, type and data fields extracted by fixed-offset
substrings and hex parsing. The boolean is the loop break of record type 1. -/
def processLine (st : HexState) (line : List Char) : HexState × Bool :=
  match line with
  | ':' :: _ =>
    let len := parseIntHex (jsSubstring line 1 3)
    let addr := parseIntHex (jsSubstring line 3 7)
    let rtype := parseIntHex (jsSubstring line 7 9)
    let dataStr := jsSubstring line 9 (match len with | some k => 9 + 2 * k | none => 0)
    processRecord st len addr rtype dataStr
  | _ => (st, false)

/-- The `parseHex` line loop, stopping at an end-of-file record. -/
def runLines : HexState → List (List Char) → HexState
  | st, [] => st
  | st, l :: ls =>
    match processLine st l with
    | (st', true) => st'
    | (st', false) => runLines st' ls

/-- Split on `'\n'`, like `String.prototype.split`. -/
def splitOnNewline : List Char → List (List Char)
  | [] => [[]]
  | c :: t =>
    let r := splitOnNewline t
    if c = '\n' then [] :: r
    else
      match r with
      | h :: t' => (c :: h) :: t'
      | [] => [[c]]

/-- Remove one trailing carriage return. -/
def stripTrailCR (l : List Char) : List Char :=
  match l.getLast? with
  | some '\r' => l.dropLast
  | _ => l

/-- Apply `f` to every element but the last. -/
def mapExceptLast (f : List Char → List Char) : List (List Char) → List (List Char)
  | [] => []
  | [x] => [x]
  | x :: xs => f x :: mapExceptLast f xs

/-- `text.split(/\r?\n/)`: split on newlines, consuming one carriage return
before each matched newline. -/
def splitLines (text : List Char) : List (List Char) :=
  mapExceptLast stripTrailCR (splitOnNewline text)

/-- `FileParsers.parseHex`: run the line loop from the empty state and
commit any still-open segment at the end. -/
def parseHex (text : List Char) : List HexSegment :=
  let st := runLines ⟨[], 0, [], some (-1)⟩ (splitLines text)
  (commitSegment st).segments

/-- The 16 data bytes `00 11 22 ... FF` used by the specification's
`parseHex` examples. -/
def hexBytes16 : List Nat :=
  [0x00, 0x11, 0x22, 0x33, 0x44, 0x55, 0x66, 0x77,
   0x88, 0x99, 0xAA, 0xBB, 0xCC, 0xDD, 0xEE, 0xFF]

/-! ## Claim C5: parseHex segmentation -/

/-- Claim C5: a data record whose absolute address equals the accumulating
segment's base plus its accumulated length extends that segment in place; a
non-contiguous data record closes the pending segment and starts a new one
at its absolute address; extended segment address (type 2), extended linear
address (type 4) and end-of-file (type 1) records close the pending
segment, type 1 also stopping the loop; and on the specification's example
inputs, two contiguous 16-byte records yield one 32-byte segment at 0 while
the same records separated by an extended-linear-address record yield two
segments. -/
theorem claim_C5_parseHex :
    (∀ (st : HexState) (a av : Int) (len addr : Option Int) (ds : List Char),
        st.currentAddress = some a → a ≠ -1 → addr = some av →
        st.extendedAddress + av = a + (st.currentData.length : Int) →
        processRecord st len addr (some 0) ds =
          ({ st with currentData := st.currentData ++ decodeHexBytes ds len }, false))
  ∧ (∀ (st : HexState) (a av : Int) (len addr : Option Int) (ds : List Char),
        st.currentAddress = some a → a ≠ -1 → st.currentData ≠ [] → addr = some av →
        st.extendedAddress + av ≠ a + (st.currentData.length : Int) →
        processRecord st len addr (some 0) ds =
          ({ segments := st.segments ++ [⟨some a, st.currentData.map toUint8⟩],
             extendedAddress := st.extendedAddress,
             currentData := decodeHexBytes ds len,
             currentAddress := some (st.extendedAddress + av) }, false))
  ∧ (∀ (st : HexState) (a : Int) (len addr : Option Int) (ds : List Char),
        st.currentAddress = some a → a ≠ -1 → st.currentData ≠ [] →
        ((processRecord st len addr (some 2) ds).1.segments =
            st.segments ++ [⟨some a, st.currentData.map toUint8⟩]
          ∧ (processRecord st len addr (some 2) ds).1.currentData = []
          ∧ (processRecord st len addr (some 4) ds).1.segments =
            st.segments ++ [⟨some a, st.currentData.map toUint8⟩]
          ∧ (processRecord st len addr (some 4) ds).1.currentData = []
          ∧ processRecord st len addr (some 1) ds =
            ({ st with
                segments := st.segments ++ [⟨some a, st.currentData.map toUint8⟩],
                currentData := [], currentAddress := some (-1) }, true)))
  ∧ parseHex (String.toList
      ":1000000000112233445566778899AABBCCDDEEFFF8\n:1000100000112233445566778899AABBCCDDEEFFE8\n:00000001FF") =
      [⟨some 0, hexBytes16 ++ hexBytes16⟩]
  ∧ parseHex (String.toList
      ":1000000000112233445566778899AABBCCDDEEFFF8\n:020000040000FA\n:1000100000112233445566778899AABBCCDDEEFFE8\n:00000001FF") =
      [⟨some 0, hexBytes16⟩, ⟨some 16, hexBytes16⟩] := by
  refine ⟨?_, ?_, ?_, by decide, by decide⟩
  · intro st a av len addr ds h1 h2 h3 h4
    subst h3
    simp [processRecord, jsAdd, jsStrictEq, h1, h2, h4]
  · intro st a av len addr ds h1 h2 hne h3 h4
    subst h3
    simp [processRecord, jsAdd, jsStrictEq, h1, h2, h4, commitSegment,
      List.length_pos, hne]
  · intro st a len addr ds h1 h2 hne
    refine ⟨?_, ?_, ?_, ?_, ?_⟩ <;>
      simp [processRecord, jsStrictEq, commitSegment, List.length_pos, hne, h1, h2]

/-- Witness for claim C5: a contiguous one-byte data record extends the
pending one-byte segment in place. -/
theorem claim_C5_witness :
    processRecord ⟨[], 0, [some 1], some 0⟩ (some 1) (some 1) (some 0) ['A', 'B'] =
      (⟨[], 0, [some 1, some 0xAB], some 0⟩, false) := by
  exact claim_C5_parseHex.1 ⟨[], 0, [some 1], some 0⟩ 0 1 (some 1) (some 1) ['A', 'B']
    rfl (by decide) rfl (by decide)

/-! ## Claim C9: parser error behaviour -/

/-- Counterexample to claim C9: `parseHex` does not raise on malformed HEX
input — on a data record whose data field `GGGG` has no hex digits it
silently returns a decoded segment (the NaN bytes coerce to 0 in the
`Uint8Array`), and its type has no error outcome at all. -/
theorem claim_C9_counterexample :
    parseHex (String.toList ":02000000GGGG") = [⟨some 0, [0, 0]⟩] := by decide

/-- Claim C9 as amended: `parseBin` and `parseHex` are pure total functions
that never raise (`parseHex` silently decodes malformed fields), while
`parseElf` raises a typed error that aborts the whole parse — on any input
whose first four bytes are not the ELF magic it returns the invalid-magic
error and no segment list. -/
theorem claim_C9_parser_totality :
    (∀ (buffer : List Nat) (base : Nat), parseBin buffer base = [⟨base, buffer⟩])
  ∧ (∀ (b0 b1 b2 b3 : Nat) (rest : List Nat),
        b0 % 256 * 2 ^ 24 + b1 % 256 * 2 ^ 16 + b2 % 256 * 2 ^ 8 + b3 % 256 ≠ 0x7F454C46 →
        parseElf (b0 :: b1 :: b2 :: b3 :: rest) = Except.error ElfErr.invalidMagic)
  ∧ parseHex (String.toList ":02000000GGGG") = [⟨some 0, [0, 0]⟩] := by
  refine ⟨fun buffer base => rfl, ?_, by decide⟩
  intro b0 b1 b2 b3 rest h
  have h1 : dvGetUint32 (b0 :: b1 :: b2 :: b3 :: rest) 0 false =
      Except.ok (b0 % 256 * 2 ^ 24 + b1 % 256 * 2 ^ 16 + b2 % 256 * 2 ^ 8 + b3 % 256) := by
    rw [dvGetUint32, if_pos (by simp only [List.length_cons]; omega)]
    norm_num [List.getD]
  simp only [parseElf, h1, except_ok_bind]
  rw [if_pos h]
  rfl

/-- Witness for claim C9: the all-zero four-byte input fails the magic
check with the invalid-magic error. -/
theorem claim_C9_witness :
    parseElf [0, 0, 0, 0] = Except.error ElfErr.invalidMagic :=
  claim_C9_parser_totality.2.1 0 0 0 0 [] (by decide)
